import Mathlib

/-!
# vshell: read-eval loop, dispatch and directory navigation

A shallow embedding of `main.go` of the vshell repository.  Go strings are
Lean `String`s (sequences of Unicode code points), Go `error` values are
`Option String` (the text of `err.Error()`), and everything the program reaches
through the operating system or the Go runtime is a field of `Env`, so that
every statement below holds for any behaviour of those collaborators.
-/

namespace VShell

/-! ## Go library functions used by the program -/

/-- Go `unicode.IsSpace`: the Latin-1 cases of the switch followed by the
`White_Space` range table. -/
def isSpace (c : Char) : Bool :=
  let r := c.toNat
  r == 0x09 || r == 0x0A || r == 0x0B || r == 0x0C || r == 0x0D || r == 0x20 ||
  r == 0x85 || r == 0xA0 || r == 0x1680 || (0x2000 ≤ r && r ≤ 0x200A) ||
  r == 0x2028 || r == 0x2029 || r == 0x202F || r == 0x205F || r == 0x3000

/-- Leading and trailing white space removed from a list of code points. -/
def trimChars (cs : List Char) : List Char :=
  (((cs.dropWhile isSpace).reverse).dropWhile isSpace).reverse

/-- Go `strings.TrimSpace`. -/
def TrimSpace (s : String) : String := String.mk (trimChars s.data)

/-- The scanning loop of `strings.Fields`: `cur` holds, reversed, the code
points of the field that is open at the current position. -/
def fieldsAux : List Char → List Char → List (List Char)
  | [], cur => if cur.isEmpty then [] else [cur.reverse]
  | c :: cs, cur =>
    if isSpace c then
      if cur.isEmpty then fieldsAux cs [] else cur.reverse :: fieldsAux cs []
    else fieldsAux cs (c :: cur)

/-- Go `strings.Fields`: the maximal runs of non-space code points, in order. -/
def Fields (s : String) : List String := (fieldsAux s.data []).map String.mk

/-- The table `"0123456789abcdef"` of `strconv`, indexed by a nibble. -/
def lowerhex (n : Nat) : Char := "0123456789abcdef".data.getD n (Char.ofNat 48)

/-- The `n` low nibbles of `r`, most significant first, as hexadecimal digits. -/
def hexNibbles (r : Nat) : Nat → List Char
  | 0 => []
  | n + 1 => lowerhex ((r / 16 ^ n) % 16) :: hexNibbles r n

/-- Go `strconv.IsPrint`.  The Latin-1 fast path is written out; `wide` stands
for the lookup in the `isPrint16`/`isPrint32` tables of the Go runtime, which
decides the code points above U+00FF. -/
def IsPrint (wide : Char → Bool) (c : Char) : Bool :=
  let r := c.toNat
  if r ≤ 0xFF then
    if 0x20 ≤ r ∧ r ≤ 0x7E then true
    else if 0xA1 ≤ r ∧ r ≤ 0xFF then r != 0xAD
    else false
  else wide c

/-- Go `strconv.appendEscapedRune` with quote `"`, `ASCIIonly` and
`graphicOnly` false: the text one code point contributes to a `%q` string. -/
def appendEscapedRune (wide : Char → Bool) (c : Char) : List Char :=
  let r := c.toNat
  let bs := Char.ofNat 92
  if r = 34 ∨ r = 92 then [bs, c]
  else if IsPrint wide c then [c]
  else if r = 7 then [bs, Char.ofNat 97]
  else if r = 8 then [bs, Char.ofNat 98]
  else if r = 12 then [bs, Char.ofNat 102]
  else if r = 10 then [bs, Char.ofNat 110]
  else if r = 13 then [bs, Char.ofNat 114]
  else if r = 9 then [bs, Char.ofNat 116]
  else if r = 11 then [bs, Char.ofNat 118]
  else if r < 32 ∨ r = 0x7F then bs :: Char.ofNat 120 :: hexNibbles r 2
  else if r < 0x10000 then bs :: Char.ofNat 117 :: hexNibbles r 4
  else bs :: Char.ofNat 85 :: hexNibbles r 8

/-- Go `strconv.Quote`, which is what the verb `%q` prints for a string. -/
def Quote (wide : Char → Bool) (s : String) : String :=
  String.mk (Char.ofNat 34 :: (s.data.flatMap (appendEscapedRune wide) ++ [Char.ofNat 34]))

/-- The verb `%3d` for a non-negative integer: decimal digits, padded on the
left with spaces to a width of three. -/
def fmt3d (n : Nat) : String :=
  String.mk (List.replicate (3 - (Nat.repr n).length) (Char.ofNat 32)) ++ Nat.repr n

/-! ## State of the process and its collaborators -/

/-- A call to the operating system that can change state outside the process
image; every attempt is logged, whether it succeeds or not. -/
inductive Syscall where
  | chdir (path : String)
  | setenv (key value : String)
  | mkdir (path : String) (perm : Nat)
deriving DecidableEq, Repr

/-- Everything the program can change: the package-level `history` slice, the
working directory of the process, the environment variable `OLDPWD` (`none`
when unset), what has been written to the two output streams, and the log of
state-changing system calls. -/
structure World where
  history : List String
  cwd : String
  oldpwd : Option String
  stdout : List String
  stderr : List String
  syscalls : List Syscall
deriving DecidableEq, Repr

/-- The values `time.Now().In(loc)` is printed as by `printDate`. -/
structure Clock where
  full : String
  year : String
  month : String
  day : String
  time : String

/-- The collaborators of the program.  Each field answers one call in a given
state: an `Except` carries the result or the text of the error, an `Option`
carries the text of the error of a call that returns only an error. -/
structure Env where
  userHomeDir : World → Except String String
  getwd : World → Option String
  chdir : World → String → Except String String
  setenvErr : World → String → String → Option String
  readDir : World → Except String (List String)
  mkdirErr : World → String → Nat → Option String
  currentUser : World → Except String String
  loadLocation : World → Option String
  now : World → Clock
  isPrintWide : Char → Bool

/-- Go `os.Getenv("OLDPWD")`: the empty string when the variable is unset. -/
def getenvOLDPWD (w : World) : String := w.oldpwd.getD ""

/-- How a call of `executeCommand` ends: it returns an `error` (`none` is
`nil`), the process exits through `os.Exit`, or an index is out of range. -/
inductive Outcome where
  | returned (err : Option String)
  | exited (code : Nat)
  | panicked
deriving DecidableEq, Repr

/-- What the read signal of the line editor is, when it is not `nil`. -/
inductive ReadErr where
  | interrupt
  | eof
  | other (msg : String)
deriving DecidableEq, Repr

/-- What the body of the `for` loop of `main` does next. -/
inductive LoopCtl where
  | again
  | leave
  | halt (code : Nat)
  | crash
deriving DecidableEq, Repr

/-- Go `fmt.Println` / `fmt.Print` / `fmt.Printf` on standard output. -/
def World.print (w : World) (text : String) : World :=
  { w with stdout := w.stdout ++ [text] }

/-! ## The program -/

/-- The first part of `changeDir` (lines 81-108): the directory to change to,
or the error the function returns before it touches the working directory. -/
def cdTarget (env : Env) (args : List String) (w : World) : Except String String :=
  match args with
  | [] =>
    match env.userHomeDir w with
    | .error e => .error ("failed to get home directory: " ++ e)
    | .ok home => .ok home
  | targetDir :: _ =>
    if targetDir = "~" then
      match env.userHomeDir w with
      | .error e => .error ("failed to get home directory: " ++ e)
      | .ok home => .ok home
    else if targetDir = "-" then
      let previousDir := getenvOLDPWD w
      if previousDir = "" then .error "no previous directory set"
      else .ok previousDir
    else .ok targetDir

/-- The function `changeDir`: returned error and resulting state. -/
def changeDir (env : Env) (args : List String) (w : World) : Option String × World :=
  match cdTarget env args w with
  | .error e => (some e, w)
  | .ok targetDir =>
    match env.getwd w with
    | some e => (some ("failed to get current directory: " ++ e), w)
    | none =>
      let currentDir := w.cwd
      let w1 := { w with syscalls := w.syscalls ++ [Syscall.chdir targetDir] }
      match env.chdir w targetDir with
      | .error e =>
        (some ("failed to change directory to " ++ targetDir ++ ": " ++ e), w1)
      | .ok dir =>
        let w2 := { w1 with cwd := dir,
                            syscalls := w1.syscalls ++ [Syscall.setenv "OLDPWD" currentDir] }
        match env.setenvErr w2 "OLDPWD" currentDir with
        | some e => (some ("failed to set OLDPWD: " ++ e), w2)
        | none => (none, { w2 with oldpwd := some currentDir })

/-- The function `listDir`. -/
def listDir (env : Env) (w : World) : Option String × World :=
  match env.readDir w with
  | .error e => (some e, w)
  | .ok entries => (none, entries.foldl (fun acc name => acc.print (name ++ "\n")) w)

/-- The function `printPwd`. -/
def printPwd (env : Env) (w : World) : Option String × World :=
  match env.getwd w with
  | some e => (some e, w)
  | none => (none, w.print (w.cwd ++ "\n"))

/-- The function `printDate`. -/
def printDate (env : Env) (args : List String) (w : World) : Option String × World :=
  match env.loadLocation w with
  | some e => (some e, w)
  | none =>
    let now := env.now w
    match args with
    | [] => (none, w.print (now.full ++ "\n"))
    | a :: _ =>
      if a = "year" then (none, w.print (now.year ++ "\n"))
      else if a = "month" then (none, w.print (now.month ++ "\n"))
      else if a = "day" then (none, w.print (now.day ++ "\n"))
      else if a = "time" then (none, w.print (now.time ++ "\n"))
      else (some "usage: date [year|month|day|time]", w)

/-- The function `printUser`. -/
def printUser (env : Env) (w : World) : Option String × World :=
  match env.currentUser w with
  | .error e => (some e, w)
  | .ok name => (none, w.print (name ++ "\n"))

/-- The lines `printHelp` prints. -/
def helpLines : List String :=
  ["Available commands:",
   "  ls        - List directory contents",
   "  cd [dir]  - Change directory",
   "  pwd       - Print working directory",
   "  clear     - Clean the terminal",
   "  date ...  - Show date/time (sub: year|month|day|time)",
   "  whoami    - Show current user name",
   "  history   - Show command history",
   "  mkdir <d> - Create directory",
   "  exit      - Exit the shell"]

/-- The function `printHelp`. -/
def printHelp (w : World) : World :=
  helpLines.foldl (fun acc l => acc.print (l ++ "\n")) w

/-- The `history` case: one `Printf("%3d %s\n", i+1, h)` per entry. -/
def printHistory (w : World) : World :=
  w.history.enum.foldl (fun acc ih => acc.print (fmt3d (ih.1 + 1) ++ " " ++ ih.2 ++ "\n")) w

/-- The names the `switch` of `executeCommand` has a case for. -/
def builtins : List String :=
  ["exit", "ls", "pwd", "cd", "clear", "help", "date", "whoami", "history", "mkdir"]

/-- The text of the error of the `default` case. -/
def unknownCommandMsg (wide : Char → Bool) (cmd : String) : String :=
  "unknown command " ++ Quote wide cmd ++ " (type \"help\" for list)"

/-- Lifts the result of a helper that returns an `error` to an `Outcome`. -/
def ret (r : Option String × World) : Outcome × World := (Outcome.returned r.1, r.2)

/-- The function `executeCommand`. -/
def executeCommand (env : Env) (command : String) (w : World) : Outcome × World :=
  let cmdLine := TrimSpace command
  if cmdLine = "" then (Outcome.returned (some "no command provided"), w)
  else
    let w := { w with history := w.history ++ [cmdLine] }
    match Fields cmdLine with
    | [] => (Outcome.panicked, w)
    | cmd :: args =>
      if cmd = "exit" then (Outcome.exited 0, w.print "Exiting the shell\n")
      else if cmd = "ls" then ret (listDir env w)
      else if cmd = "pwd" then ret (printPwd env w)
      else if cmd = "cd" then ret (changeDir env args w)
      else if cmd = "clear" then (Outcome.returned none, w.print "\x1b[H\x1b[2J")
      else if cmd = "help" then (Outcome.returned none, printHelp w)
      else if cmd = "date" then ret (printDate env args w)
      else if cmd = "whoami" then ret (printUser env w)
      else if cmd = "history" then (Outcome.returned none, printHistory w)
      else if cmd = "mkdir" then
        match args with
        | [] => (Outcome.returned (some "usage: mkdir <directory>"), w)
        | dir :: _ =>
          let w1 := { w with syscalls := w.syscalls ++ [Syscall.mkdir dir 0o755] }
          match env.mkdirErr w dir 0o755 with
          | some e => (Outcome.returned (some e), w1)
          | none => (Outcome.returned none, w1.print ("Directory created: " ++ dir ++ "\n"))
      else (Outcome.returned (some (unknownCommandMsg env.isPrintWide cmd)), w)

/-- One pass through the body of the `for` loop of `main`, given what
`rl.Readline()` returned. -/
def loopBody (env : Env) (line : String) (err : Option ReadErr) (w : World) :
    LoopCtl × World :=
  match err with
  | some ReadErr.interrupt =>
    if line.length = 0 then (LoopCtl.again, w)
    else (LoopCtl.again, w.print "\r")
  | some ReadErr.eof => (LoopCtl.leave, w.print "bye\n")
  | _ =>
    let command := TrimSpace line
    let w1 := if command ≠ "" then { w with history := w.history ++ [command] } else w
    match executeCommand env command w1 with
    | (Outcome.returned (some e), w2) =>
      (LoopCtl.again, { w2 with stderr := w2.stderr ++ [e ++ "\n"] })
    | (Outcome.returned none, w2) => (LoopCtl.again, w2)
    | (Outcome.exited code, w2) => (LoopCtl.halt code, w2)
    | (Outcome.panicked, w2) => (LoopCtl.crash, w2)

/-! ## A concrete environment for evaluating the program -/

/-- A small file system: three directories, one user, a fixed clock. -/
def sampleEnv : Env where
  userHomeDir := fun _ => .ok "/home/u"
  getwd := fun _ => none
  chdir := fun _ p =>
    if p = "/" ∨ p = "/home/u" ∨ p = "/tmp" then .ok p
    else .error ("chdir " ++ p ++ ": no such file or directory")
  setenvErr := fun _ _ _ => none
  readDir := fun _ => .ok ["a.txt", "b"]
  mkdirErr := fun _ p _ =>
    if p = "/tmp" then some ("mkdir " ++ p ++ ": file exists") else none
  currentUser := fun _ => .ok "u"
  loadLocation := fun _ => none
  now := fun _ =>
    { full := "Mon Jan 02 15:04:05 IST 2006", year := "2006", month := "January",
      day := "2", time := "15:04:05" }
  isPrintWide := fun _ => true

/-- The state of a freshly started shell in `/home/u`. -/
def world0 : World :=
  { history := [], cwd := "/home/u", oldpwd := none, stdout := [], stderr := [],
    syscalls := [] }

/-- A state in `/tmp` with `/home/u` as the previous directory. -/
def world1 : World :=
  { history := ["cd /tmp"], cwd := "/tmp", oldpwd := some "/home/u", stdout := [],
    stderr := [], syscalls := [] }

/-- The environment `sampleEnv` on a system whose working directory is reported
as a cleaned path: a change to `/tmp/` is reported as `/tmp`. -/
def cleanEnv : Env :=
  { sampleEnv with
    chdir := fun _ p =>
      if p = "/tmp" ∨ p = "/tmp/" then .ok "/tmp"
      else if p = "/home/u" ∨ p = "/home/u/" then .ok "/home/u"
      else .error ("chdir " ++ p ++ ": no such file or directory") }

/-- A state in `/home/u` whose `OLDPWD`, inherited from the parent process, is
`/tmp/`. -/
def world2 : World :=
  { history := [], cwd := "/home/u", oldpwd := some "/tmp/", stdout := [], stderr := [],
    syscalls := [] }

/-! ## Trimming and splitting -/

theorem dropWhile_isSpace_head (cs : List Char) :
    ∀ c ∈ (cs.dropWhile isSpace).head?, isSpace c = false := by
  induction cs with
  | nil => simp
  | cons a l ih =>
    by_cases ha : isSpace a = true
    · simpa [List.dropWhile_cons, ha] using ih
    · simp [List.dropWhile_cons, ha]

theorem dropWhile_isSpace_of_head (l : List Char)
    (h : ∀ c ∈ l.head?, isSpace c = false) : l.dropWhile isSpace = l := by
  cases l with
  | nil => rfl
  | cons a l => simp [List.dropWhile_cons, h a (by simp)]

theorem dropWhile_isSpace_eq_nil (cs : List Char) :
    cs.dropWhile isSpace = [] ↔ ∀ c ∈ cs, isSpace c = true := by
  simp [List.dropWhile_eq_nil_iff]

theorem trimChars_eq_nil (cs : List Char) :
    trimChars cs = [] ↔ ∀ c ∈ cs, isSpace c = true := by
  unfold trimChars
  rw [List.reverse_eq_nil_iff, dropWhile_isSpace_eq_nil]
  constructor
  · intro h
    rw [← dropWhile_isSpace_eq_nil]
    by_contra hne
    obtain ⟨a, l, hal⟩ := List.exists_cons_of_ne_nil hne
    have h1 := dropWhile_isSpace_head cs a (by simp [hal])
    have h2 := h a (by simp [hal])
    simp [h1] at h2
  · intro h c hc
    rw [(dropWhile_isSpace_eq_nil cs).2 h] at hc
    simp at hc

theorem trimChars_head (cs : List Char) :
    ∀ c ∈ (trimChars cs).head?, isSpace c = false := by
  intro c hc
  have hpre : trimChars cs <+: cs.dropWhile isSpace := by
    unfold trimChars
    exact List.rdropWhile_prefix isSpace _
  obtain ⟨t, ht⟩ := hpre
  apply dropWhile_isSpace_head cs c
  rw [← ht]
  cases hl : trimChars cs with
  | nil => simp [hl] at hc
  | cons a l => simpa [hl] using hc

theorem trimChars_idem (cs : List Char) : trimChars (trimChars cs) = trimChars cs := by
  have h1 : (trimChars cs).dropWhile isSpace = trimChars cs :=
    dropWhile_isSpace_of_head _ (trimChars_head cs)
  have h2 : (trimChars cs).rdropWhile isSpace = trimChars cs := by
    unfold trimChars
    exact List.rdropWhile_idempotent isSpace _
  calc trimChars (trimChars cs)
      = ((trimChars cs).dropWhile isSpace).rdropWhile isSpace := rfl
    _ = trimChars cs := by rw [h1, h2]

theorem trimChars_exists_nonspace (cs : List Char) (h : trimChars cs ≠ []) :
    ∃ c ∈ trimChars cs, isSpace c = false := by
  obtain ⟨a, l, hal⟩ := List.exists_cons_of_ne_nil h
  exact ⟨a, by simp [hal], trimChars_head cs a (by simp [hal])⟩

theorem fieldsAux_tokens (cs : List Char) :
    ∀ cur : List Char, (∀ c ∈ cur, isSpace c = false) →
      ∀ t ∈ fieldsAux cs cur, t ≠ [] ∧ ∀ c ∈ t, isSpace c = false := by
  induction cs with
  | nil =>
    intro cur hcur t ht
    cases cur with
    | nil => simp [fieldsAux] at ht
    | cons a l =>
      simp only [fieldsAux, List.isEmpty_cons, Bool.false_eq_true, if_false,
        List.mem_singleton] at ht
      subst ht
      exact ⟨by simp, fun c hc => hcur c (List.mem_reverse.1 hc)⟩
  | cons a l ih =>
    intro cur hcur t ht
    by_cases ha : isSpace a = true
    · cases cur with
      | nil =>
        simp only [fieldsAux, ha, if_true, List.isEmpty_nil] at ht
        exact ih [] (by simp) t ht
      | cons b m =>
        simp only [fieldsAux, ha, if_true, List.isEmpty_cons, Bool.false_eq_true, if_false,
          List.mem_cons] at ht
        rcases ht with ht | ht
        · subst ht
          exact ⟨by simp, fun c hc => hcur c (List.mem_reverse.1 hc)⟩
        · exact ih [] (by simp) t ht
    · simp only [fieldsAux, ha, Bool.false_eq_true, if_false] at ht
      refine ih (a :: cur) ?_ t ht
      intro c hc
      rcases List.mem_cons.1 hc with h | h
      · subst h; simpa using ha
      · exact hcur c h

theorem fieldsAux_ne_nil (cs : List Char) :
    ∀ cur : List Char, (cur ≠ [] ∨ ∃ c ∈ cs, isSpace c = false) → fieldsAux cs cur ≠ [] := by
  induction cs with
  | nil =>
    intro cur h
    rcases h with h | ⟨c, hc, _⟩
    · cases cur with
      | nil => exact absurd rfl h
      | cons a l => simp [fieldsAux]
    · simp at hc
  | cons a l ih =>
    intro cur h
    by_cases ha : isSpace a = true
    · cases cur with
      | nil =>
        simp only [fieldsAux, ha, if_true, List.isEmpty_nil]
        apply ih []
        right
        rcases h with h | ⟨c, hc, hs⟩
        · exact absurd rfl h
        · rcases List.mem_cons.1 hc with e | e
          · subst e; simp [ha] at hs
          · exact ⟨c, e, hs⟩
      | cons b m => simp [fieldsAux, ha]
    · simp only [fieldsAux, ha, Bool.false_eq_true, if_false]
      exact ih (a :: cur) (Or.inl (by simp))

theorem string_mk_eq_empty (l : List Char) : String.mk l = "" ↔ l = [] := by
  constructor
  · intro h
    have := congrArg String.data h
    simpa using this
  · intro h; subst h; rfl

theorem TrimSpace_eq_empty (s : String) :
    TrimSpace s = "" ↔ ∀ c ∈ s.data, isSpace c = true := by
  unfold TrimSpace
  rw [string_mk_eq_empty, trimChars_eq_nil]

theorem TrimSpace_idem (s : String) : TrimSpace (TrimSpace s) = TrimSpace s := by
  unfold TrimSpace
  simp [trimChars_idem]

theorem Fields_tokens (s : String) :
    ∀ t ∈ Fields s, t ≠ "" ∧ ∀ c ∈ t.data, isSpace c = false := by
  intro t ht
  unfold Fields at ht
  obtain ⟨l, hl, rfl⟩ := List.mem_map.1 ht
  obtain ⟨h1, h2⟩ := fieldsAux_tokens s.data [] (by simp) l hl
  exact ⟨fun h => h1 ((string_mk_eq_empty l).1 h), h2⟩

theorem Fields_TrimSpace_ne_nil (s : String) (h : TrimSpace s ≠ "") :
    Fields (TrimSpace s) ≠ [] := by
  unfold Fields
  intro hnil
  have hne : trimChars s.data ≠ [] := fun e => h ((string_mk_eq_empty _).2 e)
  have := fieldsAux_ne_nil (trimChars s.data) [] (Or.inr (trimChars_exists_nonspace _ hne))
  apply this
  simpa [TrimSpace] using hnil

theorem Fields_ne_nil_trim (s : String) (h : Fields (TrimSpace s) ≠ []) : TrimSpace s ≠ "" := by
  intro e
  rw [e] at h
  exact h (by decide)

theorem fieldsAux_dropWhile (cs : List Char) :
    fieldsAux (cs.dropWhile isSpace) [] = fieldsAux cs [] := by
  induction cs with
  | nil => rfl
  | cons a l ih =>
    by_cases ha : isSpace a = true
    · simp [List.dropWhile_cons, ha, fieldsAux, ih]
    · simp [List.dropWhile_cons, ha]

theorem fieldsAux_spaces (sp : List Char) (hsp : ∀ c ∈ sp, isSpace c = true) :
    ∀ cur : List Char, fieldsAux sp cur = fieldsAux [] cur := by
  induction sp with
  | nil => intro cur; rfl
  | cons a l ih =>
    intro cur
    have ha : isSpace a = true := hsp a (by simp)
    have hl := ih (fun c hc => hsp c (List.mem_cons_of_mem _ hc)) []
    cases cur with
    | nil => simp [fieldsAux, ha, hl]
    | cons b m => simp [fieldsAux, ha, hl]

theorem fieldsAux_append_spaces (l sp : List Char) (hsp : ∀ c ∈ sp, isSpace c = true) :
    ∀ cur : List Char, fieldsAux (l ++ sp) cur = fieldsAux l cur := by
  induction l with
  | nil => intro cur; simpa using fieldsAux_spaces sp hsp cur
  | cons a l ih =>
    intro cur
    by_cases ha : isSpace a = true
    · cases cur with
      | nil => simp [fieldsAux, ha, ih]
      | cons b m => simp [fieldsAux, ha, ih]
    · simp [fieldsAux, ha, ih]

theorem trimChars_append_spaces (cs : List Char) :
    ∃ sp : List Char, (∀ c ∈ sp, isSpace c = true) ∧
      trimChars cs ++ sp = cs.dropWhile isSpace := by
  refine ⟨((cs.dropWhile isSpace).reverse.takeWhile isSpace).reverse, ?_, ?_⟩
  · intro c hc
    exact List.mem_takeWhile_imp (List.mem_reverse.1 hc)
  · unfold trimChars
    rw [← List.reverse_append, List.takeWhile_append_dropWhile, List.reverse_reverse]

theorem fieldsAux_trimChars (cs : List Char) :
    fieldsAux (trimChars cs) [] = fieldsAux cs [] := by
  obtain ⟨sp, hsp, h⟩ := trimChars_append_spaces cs
  rw [← fieldsAux_dropWhile cs, ← h, fieldsAux_append_spaces _ sp hsp]

/-- Trimming a line does not change its fields. -/
theorem Fields_TrimSpace (s : String) : Fields (TrimSpace s) = Fields s := by
  unfold Fields TrimSpace
  simp [fieldsAux_trimChars]

/-! ## Effects of the helpers on the state -/

theorem foldl_print_fields (f : α → String) (l : List α) :
    ∀ w : World,
      (l.foldl (fun acc x => acc.print (f x)) w).history = w.history ∧
      (l.foldl (fun acc x => acc.print (f x)) w).stderr = w.stderr ∧
      (l.foldl (fun acc x => acc.print (f x)) w).cwd = w.cwd ∧
      (l.foldl (fun acc x => acc.print (f x)) w).oldpwd = w.oldpwd ∧
      (l.foldl (fun acc x => acc.print (f x)) w).syscalls = w.syscalls := by
  induction l with
  | nil => intro w; simp
  | cons a l ih =>
    intro w
    simpa [World.print] using ih (w.print (f a))

theorem changeDir_history (env : Env) (args : List String) (w : World) :
    (changeDir env args w).2.history = w.history := by
  unfold changeDir
  split
  · rfl
  · split
    · rfl
    · dsimp only
      split
      · rfl
      · split <;> rfl

theorem listDir_history (env : Env) (w : World) : (listDir env w).2.history = w.history := by
  unfold listDir
  split
  · rfl
  · exact (foldl_print_fields (fun name => name ++ "\n") _ w).1

theorem printPwd_history (env : Env) (w : World) : (printPwd env w).2.history = w.history := by
  unfold printPwd
  split <;> rfl

theorem printDate_history (env : Env) (args : List String) (w : World) :
    (printDate env args w).2.history = w.history := by
  unfold printDate
  split
  · rfl
  · dsimp only
    split
    · rfl
    · repeat (first | rfl | split)

theorem printUser_history (env : Env) (w : World) : (printUser env w).2.history = w.history := by
  unfold printUser
  split <;> rfl

theorem printHelp_history (w : World) : (printHelp w).history = w.history :=
  (foldl_print_fields (fun l => l ++ "\n") helpLines w).1

theorem printHistory_history (w : World) : (printHistory w).history = w.history :=
  (foldl_print_fields (fun ih : Nat × String => fmt3d (ih.1 + 1) ++ " " ++ ih.2 ++ "\n")
    w.history.enum w).1

/-- Every call of `executeCommand` on a line that is not blank leaves the
history one entry longer, whatever the command does. -/
theorem executeCommand_history (env : Env) (command : String) (w : World)
    (h : TrimSpace command ≠ "") :
    (executeCommand env command w).2.history = w.history ++ [TrimSpace command] := by
  unfold executeCommand
  simp only [h, if_false]
  split
  · rfl
  · rename_i cmd args _
    by_cases h1 : cmd = "exit"
    · rw [if_pos h1]; rfl
    rw [if_neg h1]
    by_cases h2 : cmd = "ls"
    · rw [if_pos h2]; simp only [ret, listDir_history]
    rw [if_neg h2]
    by_cases h3 : cmd = "pwd"
    · rw [if_pos h3]; simp only [ret, printPwd_history]
    rw [if_neg h3]
    by_cases h4 : cmd = "cd"
    · rw [if_pos h4]; simp only [ret, changeDir_history]
    rw [if_neg h4]
    by_cases h5 : cmd = "clear"
    · rw [if_pos h5]; rfl
    rw [if_neg h5]
    by_cases h6 : cmd = "help"
    · rw [if_pos h6]; simp only [printHelp_history]
    rw [if_neg h6]
    by_cases h7 : cmd = "date"
    · rw [if_pos h7]; simp only [ret, printDate_history]
    rw [if_neg h7]
    by_cases h8 : cmd = "whoami"
    · rw [if_pos h8]; simp only [ret, printUser_history]
    rw [if_neg h8]
    by_cases h9 : cmd = "history"
    · rw [if_pos h9]; simp only [printHistory_history]
    rw [if_neg h9]
    by_cases h10 : cmd = "mkdir"
    · rw [if_pos h10]
      split
      · rfl
      · split <;> rfl
    rw [if_neg h10]

theorem executeCommand_blank (env : Env) (command : String) (w : World)
    (h : TrimSpace command = "") :
    executeCommand env command w = (Outcome.returned (some "no command provided"), w) := by
  unfold executeCommand
  simp [h]

theorem executeCommand_exit (env : Env) (command : String) (w : World) (args : List String)
    (h : Fields (TrimSpace command) = "exit" :: args) :
    executeCommand env command w =
      (Outcome.exited 0,
        ({ w with history := w.history ++ [TrimSpace command] } : World).print
          "Exiting the shell\n") := by
  have hne : TrimSpace command ≠ "" := Fields_ne_nil_trim command (by simp [h])
  unfold executeCommand
  simp [hne, h]

theorem executeCommand_not_panicked (env : Env) (command : String) (w : World) :
    (executeCommand env command w).1 ≠ Outcome.panicked := by
  by_cases h : TrimSpace command = ""
  · simp [executeCommand_blank env command w h]
  · have hf := Fields_TrimSpace_ne_nil command h
    unfold executeCommand
    simp only [h, if_false]
    split
    · rename_i heq
      exact absurd heq hf
    · rename_i cmd args _
      by_cases h1 : cmd = "exit"
      · rw [if_pos h1]; exact Outcome.noConfusion
      rw [if_neg h1]
      by_cases h2 : cmd = "ls"
      · rw [if_pos h2]; exact Outcome.noConfusion
      rw [if_neg h2]
      by_cases h3 : cmd = "pwd"
      · rw [if_pos h3]; exact Outcome.noConfusion
      rw [if_neg h3]
      by_cases h4 : cmd = "cd"
      · rw [if_pos h4]; exact Outcome.noConfusion
      rw [if_neg h4]
      by_cases h5 : cmd = "clear"
      · rw [if_pos h5]; exact Outcome.noConfusion
      rw [if_neg h5]
      by_cases h6 : cmd = "help"
      · rw [if_pos h6]; exact Outcome.noConfusion
      rw [if_neg h6]
      by_cases h7 : cmd = "date"
      · rw [if_pos h7]; exact Outcome.noConfusion
      rw [if_neg h7]
      by_cases h8 : cmd = "whoami"
      · rw [if_pos h8]; exact Outcome.noConfusion
      rw [if_neg h8]
      by_cases h9 : cmd = "history"
      · rw [if_pos h9]; exact Outcome.noConfusion
      rw [if_neg h9]
      by_cases h10 : cmd = "mkdir"
      · rw [if_pos h10]
        split
        · exact Outcome.noConfusion
        · split <;> exact Outcome.noConfusion
      rw [if_neg h10]
      exact Outcome.noConfusion

/-- A name made of printable code points other than the double quote and the
backslash is quoted by wrapping it in double quotes, nothing else. -/
theorem flatMap_appendEscapedRune_plain (wide : Char → Bool) (l : List Char)
    (h : ∀ c ∈ l, IsPrint wide c = true ∧ c.toNat ≠ 34 ∧ c.toNat ≠ 92) :
    l.flatMap (appendEscapedRune wide) = l := by
  induction l with
  | nil => rfl
  | cons a l ih =>
    obtain ⟨h1, h2, h3⟩ := h a (by simp)
    have ha : appendEscapedRune wide a = [a] := by
      unfold appendEscapedRune
      simp [h1, h2, h3]
    rw [List.flatMap_cons, ha, ih (fun c hc => h c (List.mem_cons_of_mem _ hc))]
    rfl

theorem unknownCommandMsg_data (wide : Char → Bool) (cmd : String) :
    (unknownCommandMsg wide cmd).data =
      "unknown command ".data ++ (Quote wide cmd).data ++
        (" (type \"".data ++ "help".data ++ "\" for list)".data) := by
  unfold unknownCommandMsg
  simp only [String.data_append]
  rfl

theorem executeCommand_trim (env : Env) (command : String) (w : World) :
    executeCommand env (TrimSpace command) w = executeCommand env command w := by
  unfold executeCommand
  simp only [TrimSpace_idem]

theorem head_fields (line cmd : String) (h : (Fields line).head? = some cmd) :
    ∃ args, Fields (TrimSpace line) = cmd :: args := by
  rw [Fields_TrimSpace]
  cases hf : Fields line with
  | nil => simp [hf] at h
  | cons a l =>
    simp only [hf, List.head?_cons, Option.some.injEq] at h
    exact ⟨l, by rw [h]⟩

/-- What a call of `changeDir` that returns `nil` has done. -/
theorem changeDir_ok (env : Env) (args : List String) (w w1 : World)
    (h : changeDir env args w = (none, w1)) :
    ∃ T d, cdTarget env args w = .ok T ∧ env.getwd w = none ∧ env.chdir w T = .ok d ∧
      w1.cwd = d ∧ w1.oldpwd = some w.cwd ∧ w1.history = w.history ∧
      w1.stdout = w.stdout ∧ w1.stderr = w.stderr := by
  unfold changeDir at h
  split at h
  · simp at h
  · rename_i T hT
    split at h
    · simp at h
    · rename_i hg
      dsimp only at h
      split at h
      · simp at h
      · rename_i d hd
        split at h
        · simp at h
        · have h2 := (Prod.mk.inj h).2
          subst h2
          exact ⟨T, d, hT, hg, hd, rfl, rfl, rfl, rfl, rfl⟩

/-! ## The claims -/

/-- C1 (the code departs from it): a line whose trimmed form is not empty is
appended to the history twice in one pass of the loop, once by `main` and once
more by `executeCommand`, so the history grows by two entries, not one. -/
theorem loopBody_records_line_twice (env : Env) (line : String) (w : World)
    (h : TrimSpace line ≠ "") :
    (loopBody env line none w).2.history = w.history ++ [TrimSpace line, TrimSpace line] := by
  have hex := executeCommand_history env line
    { w with history := w.history ++ [TrimSpace line] } h
  unfold loopBody
  simp only [h, ne_eq, not_false_eq_true, if_true, executeCommand_trim]
  revert hex
  generalize executeCommand env line { w with history := w.history ++ [TrimSpace line] } = r
  intro hex
  obtain ⟨o, w2⟩ := r
  have hw2 : w2.history = w.history ++ [TrimSpace line, TrimSpace line] := by
    simpa using hex
  cases o with
  | returned e => cases e <;> exact hw2
  | exited code => exact hw2
  | panicked => exact hw2

theorem loopBody_records_line_twice_witness :
    TrimSpace "pwd" ≠ "" ∧
    (loopBody sampleEnv "pwd" none world0).2.history = [] ++ ["pwd", "pwd"] :=
  ⟨by decide, loopBody_records_line_twice sampleEnv "pwd" world0 (by decide)⟩

/-- C2, as the code has it: for a line that is empty or all white space, one
pass of the loop leaves the history (and every other part of the state but the
error stream) unchanged and continues the loop, while `executeCommand` returns
the error "no command provided", which the loop writes to the error stream. -/
theorem blank_line_reports_no_command (env : Env) (line : String) (w : World)
    (h : ∀ c ∈ line.data, isSpace c = true) :
    executeCommand env (TrimSpace line) w =
      (Outcome.returned (some "no command provided"), w) ∧
    loopBody env line none w =
      (LoopCtl.again, { w with stderr := w.stderr ++ ["no command provided\n"] }) ∧
    (loopBody env line none w).2.history = w.history := by
  have ht : TrimSpace line = "" := (TrimSpace_eq_empty line).2 h
  have hex : executeCommand env "" w = (Outcome.returned (some "no command provided"), w) :=
    executeCommand_blank env "" w (by decide)
  have hloop : loopBody env line none w =
      (LoopCtl.again, { w with stderr := w.stderr ++ ["no command provided\n"] }) := by
    unfold loopBody
    simp only [ht, ne_eq, not_true_eq_false, if_false, hex]
    rfl
  refine ⟨by rw [ht]; exact hex, hloop, ?_⟩
  rw [hloop]

theorem blank_line_reports_no_command_witness :
    (∀ c ∈ " \t ".data, isSpace c = true) ∧
    executeCommand sampleEnv (TrimSpace " \t ") world0 =
      (Outcome.returned (some "no command provided"), world0) ∧
    loopBody sampleEnv " \t " none world0 =
      (LoopCtl.again, { world0 with stderr := world0.stderr ++ ["no command provided\n"] }) ∧
    (loopBody sampleEnv " \t " none world0).2.history = world0.history :=
  ⟨by decide, blank_line_reports_no_command sampleEnv " \t " world0 (by decide)⟩

/-- C2 fails as stated: on the empty line `executeCommand` reports a failure and
the loop writes it to the error stream. -/
theorem blank_line_prints_error :
    (∀ c ∈ "".data, isSpace c = true) ∧
    (executeCommand sampleEnv (TrimSpace "") world0).1 =
      Outcome.returned (some "no command provided") ∧
    (loopBody sampleEnv "" none world0).2.stderr = ["no command provided\n"] ∧
    (loopBody sampleEnv "" none world0).2.stderr ≠ world0.stderr := by
  decide

/-- C3: when `changeDir` reaches the call that changes the working directory to
its target `t` and that call fails with `e`, it returns the error
"failed to change directory to t: e", whose text contains `t`, and the working
directory, `OLDPWD`, the history and both output streams are what they were. -/
theorem cd_failure_keeps_state (env : Env) (args : List String) (w : World) (t e : String)
    (ht : cdTarget env args w = .ok t) (hg : env.getwd w = none)
    (hc : env.chdir w t = .error e) :
    (changeDir env args w).1 = some ("failed to change directory to " ++ t ++ ": " ++ e) ∧
    t.data <:+: ("failed to change directory to " ++ t ++ ": " ++ e).data ∧
    (changeDir env args w).2.cwd = w.cwd ∧
    (changeDir env args w).2.oldpwd = w.oldpwd ∧
    (changeDir env args w).2.history = w.history ∧
    (changeDir env args w).2.stdout = w.stdout ∧
    (changeDir env args w).2.stderr = w.stderr := by
  have hcd : changeDir env args w =
      (some ("failed to change directory to " ++ t ++ ": " ++ e),
        { w with syscalls := w.syscalls ++ [Syscall.chdir t] }) := by
    unfold changeDir
    simp only [ht, hg, hc]
  rw [hcd]
  refine ⟨rfl, ?_, rfl, rfl, rfl, rfl, rfl⟩
  simp only [String.data_append]
  exact ⟨"failed to change directory to ".data, ": ".data ++ e.data, by simp⟩

theorem cd_failure_keeps_state_witness :
    cdTarget sampleEnv ["/nope"] world0 = .ok "/nope" ∧
    sampleEnv.getwd world0 = none ∧
    sampleEnv.chdir world0 "/nope" = .error "chdir /nope: no such file or directory" ∧
    (changeDir sampleEnv ["/nope"] world0).1 =
      some ("failed to change directory to " ++ "/nope" ++ ": " ++
        "chdir /nope: no such file or directory") ∧
    (changeDir sampleEnv ["/nope"] world0).2.cwd = "/home/u" ∧
    (changeDir sampleEnv ["/nope"] world0).2.oldpwd = none :=
  have h := cd_failure_keeps_state sampleEnv ["/nope"] world0 "/nope"
    "chdir /nope: no such file or directory" rfl rfl rfl
  ⟨rfl, rfl, rfl, h.1, h.2.2.1, h.2.2.2.1⟩

/-- C4, as the code has it: a call of `changeDir` that returns `nil` leaves the
working directory at the directory the change to its target `T` reached and
`OLDPWD` at the directory `A` it started in; a following `cd -` that returns
`nil` changes to `A`, leaving the working directory at the directory reached for
`A` and `OLDPWD` at the directory just left.  Hence, from any state with
`OLDPWD` set to `P`, after two `cd -` calls that return `nil` the working
directory is the one reached for the path of the first working directory and
`OLDPWD` is the directory reached for `P`: `OLDPWD` has its first value exactly
when that directory is reported under the path `P`, and both values are restored
when each of the two changes reaches its target under the path it was given. -/
theorem cd_dash_round_trip (env : Env) :
    (∀ (args : List String) (w w1 : World) (T : String),
        cdTarget env args w = .ok T → changeDir env args w = (none, w1) →
        (env.chdir w T = .ok w1.cwd ∧ w1.oldpwd = some w.cwd) ∧
        ∀ w2 : World, changeDir env ["-"] w1 = (none, w2) →
          env.chdir w1 w.cwd = .ok w2.cwd ∧ w2.oldpwd = some w1.cwd) ∧
    (∀ (w w1 w2 : World) (P : String), w.oldpwd = some P →
        changeDir env ["-"] w = (none, w1) → changeDir env ["-"] w1 = (none, w2) →
        env.chdir w P = .ok w1.cwd ∧ w1.oldpwd = some w.cwd ∧
        env.chdir w1 w.cwd = .ok w2.cwd ∧ w2.oldpwd = some w1.cwd ∧
        (w2.oldpwd = w.oldpwd ↔ w1.cwd = P) ∧
        (env.chdir w P = .ok P → env.chdir w1 w.cwd = .ok w.cwd →
          w2.cwd = w.cwd ∧ w2.oldpwd = w.oldpwd)) := by
  have step : ∀ (args : List String) (w w1 : World) (T : String),
      cdTarget env args w = .ok T → changeDir env args w = (none, w1) →
      env.chdir w T = .ok w1.cwd ∧ w1.oldpwd = some w.cwd := by
    intro args w w1 T hT h
    obtain ⟨T', d, hT', _, hd, hcwd, hold, _⟩ := changeDir_ok env args w w1 h
    rw [hT] at hT'
    cases hT'
    rw [hcwd]
    exact ⟨hd, hold⟩
  have back : ∀ (w1 w2 : World) (A : String), w1.oldpwd = some A →
      changeDir env ["-"] w1 = (none, w2) →
      env.chdir w1 A = .ok w2.cwd ∧ w2.oldpwd = some w1.cwd := by
    intro w1 w2 A hA h
    obtain ⟨T', d, hT', _, hd, hcwd, hold, _⟩ := changeDir_ok env ["-"] w1 w2 h
    have hcalc : cdTarget env ["-"] w1 =
        if A = "" then .error "no previous directory set" else .ok A := by
      simp [cdTarget, getenvOLDPWD, hA]
    have hT : T' = A := by
      rw [hcalc] at hT'
      by_cases hA0 : A = ""
      · rw [if_pos hA0] at hT'
        cases hT'
      · rw [if_neg hA0] at hT'
        cases hT'
        rfl
    subst hT
    rw [hcwd]
    exact ⟨hd, hold⟩
  constructor
  · intro args w w1 T hT h
    have h1 := step args w w1 T hT h
    refine ⟨h1, ?_⟩
    intro w2 h2
    exact back w1 w2 w.cwd h1.2 h2
  · intro w w1 w2 P hP h1 h2
    have a := back w w1 P hP h1
    have b := back w1 w2 w.cwd a.2 h2
    refine ⟨a.1, a.2, b.1, b.2, ?_, ?_⟩
    · rw [b.2, hP]
      exact ⟨fun e => Option.some.inj e, fun e => by rw [e]⟩
    · intro hl1 hl2
      have e1 : w1.cwd = P := by
        have := a.1
        rw [hl1] at this
        exact (Except.ok.inj this).symm
      have e2 : w2.cwd = w.cwd := by
        have := b.1
        rw [hl2] at this
        exact (Except.ok.inj this).symm
      exact ⟨e2, by rw [b.2, e1, hP]⟩

theorem cd_dash_round_trip_witness :
    ((sampleEnv.chdir world0 "/tmp" = .ok (changeDir sampleEnv ["/tmp"] world0).2.cwd ∧
        (changeDir sampleEnv ["/tmp"] world0).2.oldpwd = some world0.cwd) ∧
      (sampleEnv.chdir (changeDir sampleEnv ["/tmp"] world0).2 world0.cwd =
          .ok (changeDir sampleEnv ["-"] (changeDir sampleEnv ["/tmp"] world0).2).2.cwd ∧
        (changeDir sampleEnv ["-"] (changeDir sampleEnv ["/tmp"] world0).2).2.oldpwd =
          some (changeDir sampleEnv ["/tmp"] world0).2.cwd)) ∧
    ((changeDir sampleEnv ["-"] (changeDir sampleEnv ["-"] world1).2).2.cwd = world1.cwd ∧
      (changeDir sampleEnv ["-"] (changeDir sampleEnv ["-"] world1).2).2.oldpwd =
        world1.oldpwd) ∧
    (changeDir cleanEnv ["-"] (changeDir cleanEnv ["-"] world2).2).2.oldpwd =
      some (changeDir cleanEnv ["-"] world2).2.cwd :=
  have h := (cd_dash_round_trip sampleEnv).1 ["/tmp"] world0
    (changeDir sampleEnv ["/tmp"] world0).2 "/tmp" rfl rfl
  have g := (cd_dash_round_trip sampleEnv).2 world1 (changeDir sampleEnv ["-"] world1).2
    (changeDir sampleEnv ["-"] (changeDir sampleEnv ["-"] world1).2).2 "/home/u" rfl rfl rfl
  have k := (cd_dash_round_trip cleanEnv).2 world2 (changeDir cleanEnv ["-"] world2).2
    (changeDir cleanEnv ["-"] (changeDir cleanEnv ["-"] world2).2).2 "/tmp/" rfl rfl rfl
  ⟨⟨h.1, h.2 (changeDir sampleEnv ["-"] (changeDir sampleEnv ["/tmp"] world0).2).2 rfl⟩,
   g.2.2.2.2.2 rfl rfl, k.2.2.2.1⟩

/-- C4 fails as stated: with `OLDPWD` set to `/tmp/` and a system that reports
that directory as `/tmp`, two consecutive `cd -` calls both succeed and restore
the working directory, but leave `OLDPWD` at `/tmp`, not at `/tmp/`. -/
theorem cd_dash_oldpwd_not_restored :
    world2.oldpwd = some "/tmp/" ∧
    (changeDir cleanEnv ["-"] world2).1 = none ∧
    (changeDir cleanEnv ["-"] (changeDir cleanEnv ["-"] world2).2).1 = none ∧
    (changeDir cleanEnv ["-"] (changeDir cleanEnv ["-"] world2).2).2.cwd = world2.cwd ∧
    (changeDir cleanEnv ["-"] (changeDir cleanEnv ["-"] world2).2).2.oldpwd = some "/tmp" ∧
    (changeDir cleanEnv ["-"] (changeDir cleanEnv ["-"] world2).2).2.oldpwd ≠ world2.oldpwd := by
  decide

/-- C5: with `OLDPWD` unset or empty, `changeDir` called with first argument
`-` returns the error "no previous directory set" and leaves the whole state,
the log of system calls included, as it was: no directory change is attempted. -/
theorem cd_dash_without_oldpwd (env : Env) (rest : List String) (w : World)
    (h : w.oldpwd = none ∨ w.oldpwd = some "") :
    changeDir env ("-" :: rest) w = (some "no previous directory set", w) := by
  have hg : getenvOLDPWD w = "" := by
    unfold getenvOLDPWD
    rcases h with h | h <;> simp [h]
  have ht : cdTarget env ("-" :: rest) w = .error "no previous directory set" := by
    simp [cdTarget, hg]
  unfold changeDir
  simp only [ht]

theorem cd_dash_without_oldpwd_witness :
    (world0.oldpwd = none ∨ world0.oldpwd = some "") ∧
    changeDir sampleEnv ("-" :: []) world0 = (some "no previous directory set", world0) :=
  ⟨Or.inl rfl, cd_dash_without_oldpwd sampleEnv [] world0 (Or.inl rfl)⟩

/-- C6, as the code has it: for a line whose first field `cmd` is none of the
built-in names, `executeCommand` returns the error
`unknown command ` followed by `cmd` in Go-quoted (`%q`) form and by
` (type "help" for list)`.  The text contains the quoted form and the word
`help`; it contains `cmd` as written whenever every code point of `cmd` is
printable and is neither a double quote nor a backslash; and the trimmed line
is appended to the history. -/
theorem unknown_command_error (env : Env) (line cmd : String) (w : World)
    (hf : (Fields line).head? = some cmd) (hcmd : cmd ∉ builtins) :
    (executeCommand env line w).1 =
      Outcome.returned (some (unknownCommandMsg env.isPrintWide cmd)) ∧
    (Quote env.isPrintWide cmd).data <:+: (unknownCommandMsg env.isPrintWide cmd).data ∧
    "help".data <:+: (unknownCommandMsg env.isPrintWide cmd).data ∧
    ((∀ c ∈ cmd.data, IsPrint env.isPrintWide c = true ∧ c.toNat ≠ 34 ∧ c.toNat ≠ 92) →
      cmd.data <:+: (unknownCommandMsg env.isPrintWide cmd).data) ∧
    (executeCommand env line w).2.history = w.history ++ [TrimSpace line] := by
  obtain ⟨args, hargs⟩ := head_fields line cmd hf
  have hne : TrimSpace line ≠ "" := Fields_ne_nil_trim line (by simp [hargs])
  simp only [builtins, List.mem_cons, List.mem_singleton, List.not_mem_nil, or_false,
    not_or] at hcmd
  obtain ⟨h1, h2, h3, h4, h5, h6, h7, h8, h9, h10⟩ := hcmd
  refine ⟨?_, ?_, ?_, ?_, executeCommand_history env line w hne⟩
  · unfold executeCommand
    simp only [hne, if_false, hargs, h1, h2, h3, h4, h5, h6, h7, h8, h9, h10]
  · rw [unknownCommandMsg_data]
    exact ⟨"unknown command ".data, " (type \"".data ++ "help".data ++ "\" for list)".data,
      by simp⟩
  · rw [unknownCommandMsg_data]
    exact ⟨"unknown command ".data ++ (Quote env.isPrintWide cmd).data ++ " (type \"".data,
      "\" for list)".data, by simp⟩
  · intro hplain
    rw [unknownCommandMsg_data]
    have hq : (Quote env.isPrintWide cmd).data =
        [Char.ofNat 34] ++ cmd.data ++ [Char.ofNat 34] := by
      unfold Quote
      simp [flatMap_appendEscapedRune_plain env.isPrintWide cmd.data hplain]
    rw [hq]
    exact ⟨"unknown command ".data ++ [Char.ofNat 34],
      [Char.ofNat 34] ++ (" (type \"".data ++ "help".data ++ "\" for list)".data), by simp⟩

theorem unknown_command_error_witness :
    (Fields "foobar --x").head? = some "foobar" ∧ "foobar" ∉ builtins ∧
    (executeCommand sampleEnv "foobar --x" world0).1 =
      Outcome.returned (some (unknownCommandMsg sampleEnv.isPrintWide "foobar")) ∧
    "foobar".data <:+: (unknownCommandMsg sampleEnv.isPrintWide "foobar").data ∧
    (executeCommand sampleEnv "foobar --x" world0).2.history =
      world0.history ++ [TrimSpace "foobar --x"] :=
  have h := unknown_command_error sampleEnv "foobar --x" "foobar" world0 (by decide)
    (by decide)
  ⟨by decide, by decide, h.1, h.2.2.2.1 (by decide), h.2.2.2.2⟩

/-- C6 fails as stated: the line `a"b` has the single field `a"b`, which is no
built-in name, and the returned error `unknown command "a\"b" (type "help" for
list)` does not contain `a"b` as written. -/
theorem unknown_command_name_escaped :
    (Fields "a\"b").head? = some "a\"b" ∧ "a\"b" ∉ builtins ∧
    (executeCommand sampleEnv "a\"b" world0).1 =
      Outcome.returned (some "unknown command \"a\\\"b\" (type \"help\" for list)") ∧
    ¬ ("a\"b".data <:+: "unknown command \"a\\\"b\" (type \"help\" for list)".data) := by
  decide

/-- C7: when the read is interrupted, whatever text comes with the signal, the
pass through the loop continues the loop and leaves the history, the error
stream, the working directory, `OLDPWD` and the log of system calls unchanged;
it writes nothing for an empty text and a single carriage return otherwise.  No
command is executed: the result does not depend on any collaborator, and no
call of `executeCommand` that returns `nil` ends in either of these states
(a call that returns an error would have it written to the error stream). -/
theorem interrupt_discards_line (env : Env) (line : String) (w : World) :
    (loopBody env line (some ReadErr.interrupt) w).1 = LoopCtl.again ∧
    (loopBody env line (some ReadErr.interrupt) w).2.history = w.history ∧
    (loopBody env line (some ReadErr.interrupt) w).2.stderr = w.stderr ∧
    (loopBody env line (some ReadErr.interrupt) w).2.cwd = w.cwd ∧
    (loopBody env line (some ReadErr.interrupt) w).2.oldpwd = w.oldpwd ∧
    (loopBody env line (some ReadErr.interrupt) w).2.syscalls = w.syscalls ∧
    (loopBody env line (some ReadErr.interrupt) w).2.stdout =
      (if line.length = 0 then w.stdout else w.stdout ++ ["\r"]) ∧
    (∀ env2 : Env, loopBody env2 line (some ReadErr.interrupt) w =
      loopBody env line (some ReadErr.interrupt) w) ∧
    (∀ command : String,
      executeCommand env command w ≠ (Outcome.returned none, w) ∧
      executeCommand env command w ≠ (Outcome.returned none, w.print "\r")) := by
  have hx : ∀ command : String, ∀ w2 : World, w2.history = w.history →
      executeCommand env command w ≠ (Outcome.returned none, w2) := by
    intro command w2 hw2 heq
    by_cases hb : TrimSpace command = ""
    · rw [executeCommand_blank env command w hb] at heq
      have := (Prod.mk.inj heq).1
      simp at this
    · have hh := executeCommand_history env command w hb
      rw [heq] at hh
      simp [hw2] at hh
  refine ⟨?_, ?_, ?_, ?_, ?_, ?_, ?_, ?_, ?_⟩
  all_goals first
    | (intro command; exact ⟨hx command w rfl, hx command (w.print "\r") rfl⟩)
    | (intro env2; rfl)
    | (unfold loopBody; by_cases hl : line.length = 0 <;> simp [hl, World.print])

/-- C8: a `mkdir` line with no argument returns the error
"usage: mkdir <directory>" with no system call made and nothing printed; with
an argument, when the creation fails with `e` the call returns `e` and prints
nothing. -/
theorem mkdir_usage_and_failure (env : Env) (line : String) (w : World) :
    (Fields line = ["mkdir"] →
      (executeCommand env line w).1 = Outcome.returned (some "usage: mkdir <directory>") ∧
      (executeCommand env line w).2.syscalls = w.syscalls ∧
      (executeCommand env line w).2.stdout = w.stdout) ∧
    (∀ (dir : String) (rest : List String) (e : String),
      Fields line = "mkdir" :: dir :: rest →
      env.mkdirErr { w with history := w.history ++ [TrimSpace line] } dir 0o755 = some e →
      (executeCommand env line w).1 = Outcome.returned (some e) ∧
      (executeCommand env line w).2.syscalls = w.syscalls ++ [Syscall.mkdir dir 0o755] ∧
      (executeCommand env line w).2.stdout = w.stdout) := by
  constructor
  · intro hf
    have hf2 : Fields (TrimSpace line) = ["mkdir"] := by rw [Fields_TrimSpace, hf]
    have hne : TrimSpace line ≠ "" := Fields_ne_nil_trim line (by simp [hf2])
    unfold executeCommand
    simp [hne, hf2]
  · intro dir rest e hf he
    have hf2 : Fields (TrimSpace line) = "mkdir" :: dir :: rest := by
      rw [Fields_TrimSpace, hf]
    have hne : TrimSpace line ≠ "" := Fields_ne_nil_trim line (by simp [hf2])
    unfold executeCommand
    simp [hne, hf2, he]

theorem mkdir_usage_and_failure_witness :
    ((executeCommand sampleEnv "mkdir" world0).1 =
        Outcome.returned (some "usage: mkdir <directory>") ∧
      (executeCommand sampleEnv "mkdir" world0).2.syscalls = world0.syscalls ∧
      (executeCommand sampleEnv "mkdir" world0).2.stdout = world0.stdout) ∧
    ((executeCommand sampleEnv "mkdir /tmp" world0).1 =
        Outcome.returned (some "mkdir /tmp: file exists") ∧
      (executeCommand sampleEnv "mkdir /tmp" world0).2.syscalls =
        world0.syscalls ++ [Syscall.mkdir "/tmp" 0o755] ∧
      (executeCommand sampleEnv "mkdir /tmp" world0).2.stdout = world0.stdout) :=
  ⟨(mkdir_usage_and_failure sampleEnv "mkdir" world0).1 (by decide),
   (mkdir_usage_and_failure sampleEnv "mkdir /tmp" world0).2 "/tmp" [] "mkdir /tmp: file exists"
     (by decide) (by decide)⟩

/-- C9: for a line whose first field is `exit`, whatever follows it,
`executeCommand` prints "Exiting the shell" and ends the process with exit
code 0: it does not return, and the pass through the loop halts with code 0
with nothing written to the error stream. -/
theorem exit_always_terminates (env : Env) (line : String) (w : World)
    (h : (Fields line).head? = some "exit") :
    (executeCommand env line w).1 = Outcome.exited 0 ∧
    (executeCommand env line w).2.stdout = w.stdout ++ ["Exiting the shell\n"] ∧
    (∀ err : Option String, (executeCommand env line w).1 ≠ Outcome.returned err) ∧
    (loopBody env line none w).1 = LoopCtl.halt 0 ∧
    (loopBody env line none w).2.stdout = w.stdout ++ ["Exiting the shell\n"] ∧
    (loopBody env line none w).2.stderr = w.stderr := by
  obtain ⟨args, hargs⟩ := head_fields line "exit" h
  have hne : TrimSpace line ≠ "" := Fields_ne_nil_trim line (by simp [hargs])
  have hex := executeCommand_exit env line w args hargs
  have hloop : loopBody env line none w =
      (LoopCtl.halt 0,
        ({ w with history := w.history ++ [TrimSpace line, TrimSpace line] } : World).print
          "Exiting the shell\n") := by
    unfold loopBody
    simp only [hne, ne_eq, not_false_eq_true, if_true, executeCommand_trim]
    rw [executeCommand_exit env line _ args hargs]
    simp [World.print]
  rw [hex, hloop]
  refine ⟨rfl, rfl, ?_, rfl, rfl, rfl⟩
  intro err
  exact Outcome.noConfusion

theorem exit_always_terminates_witness :
    (Fields "  exit now please ").head? = some "exit" ∧
    (executeCommand sampleEnv "  exit now please " world0).1 = Outcome.exited 0 ∧
    (loopBody sampleEnv "  exit now please " none world0).1 = LoopCtl.halt 0 :=
  have h := exit_always_terminates sampleEnv "  exit now please " world0 (by decide)
  ⟨by decide, h.1, h.2.2.2.1⟩

/-- C10: for a line whose trimmed form is not empty, the fields of the trimmed
line are a command name followed by arguments, each of them non-empty and free
of white space, so `parts[0]` and `parts[1:]` are in range and `executeCommand`
does not panic. -/
theorem fields_of_nonblank_line (s : String) (h : TrimSpace s ≠ "") :
    (∃ (cmd : String) (args : List String), Fields (TrimSpace s) = cmd :: args ∧
      (cmd ≠ "" ∧ ∀ c ∈ cmd.data, isSpace c = false) ∧
      ∀ a ∈ args, a ≠ "" ∧ ∀ c ∈ a.data, isSpace c = false) ∧
    1 ≤ (Fields (TrimSpace s)).length ∧
    ∀ (env : Env) (w : World), (executeCommand env s w).1 ≠ Outcome.panicked := by
  have hf := Fields_TrimSpace_ne_nil s h
  obtain ⟨cmd, args, hca⟩ := List.exists_cons_of_ne_nil hf
  have htok := Fields_tokens (TrimSpace s)
  refine ⟨⟨cmd, args, hca, htok cmd (by simp [hca]), ?_⟩, ?_, ?_⟩
  · intro a ha
    exact htok a (by simp [hca, ha])
  · simp [hca]
  · intro env w
    exact executeCommand_not_panicked env s w

theorem fields_of_nonblank_line_witness :
    TrimSpace "  cd   /tmp\t x " ≠ "" ∧
    Fields (TrimSpace "  cd   /tmp\t x ") = ["cd", "/tmp", "x"] ∧
    1 ≤ (Fields (TrimSpace "  cd   /tmp\t x ")).length ∧
    (executeCommand sampleEnv "  cd   /tmp\t x " world0).1 ≠ Outcome.panicked :=
  have h := fields_of_nonblank_line "  cd   /tmp\t x " (by decide)
  ⟨by decide, by decide, h.2.1, h.2.2 sampleEnv world0⟩


end VShell
